import Mathlib

/-!
# Verification of the Oven firmware control core

Shallow embedding of the numerically sensitive core of the Oven firmware:
the MAX31855 thermocouple reader/linearizer (`TSensor`), the ramp-soak
program scheduler (`TProgram`) and the PID control-law family
(`PIDControl`).

Modelling conventions:
* C `double` values are modelled by `DVal`: an exact rational for every
  finite value, plus the IEEE-754 special values `+inf`/`-inf` and `NaN`
  (rounding and overflow-to-infinity are not modelled; all arithmetic the
  verified claims exercise is exact in binary floating point or is decided
  purely by the NaN/inf propagation rules, which `DVal` follows).
  Signed zero is not distinguished.
* C `uint32_t`/`unsigned long` (32-bit on the ESP target) values are `Nat`
  with explicit reduction `% 2^32` where the code relies on wraparound;
  `int32_t` values are `Int` obtained through `toInt32`.
* The arithmetic right shift `>> 18` that gcc applies to a negative
  `int32_t` is flooring division by `2^18` (`Int.fdiv`).
* `exp` from `<math.h>` is an uninterpreted parameter `expf : ℚ → ℚ`
  (finite arguments give finite results); theorems hold for every `expf`.
-/

/-- A C `double`: an exact finite rational, a signed infinity
(`inf true` is `+∞`), or `NaN`. -/
inductive DVal where
  | fin : ℚ → DVal
  | inf : Bool → DVal
  | nan : DVal
deriving DecidableEq, Repr

namespace DVal

/-- IEEE addition: `NaN` propagates, opposite infinities give `NaN`. -/
def add : DVal → DVal → DVal
  | nan, _ => nan
  | _, nan => nan
  | inf s, inf t => if s = t then inf s else nan
  | inf s, fin _ => inf s
  | fin _, inf t => inf t
  | fin a, fin b => fin (a + b)

/-- IEEE negation. -/
def neg : DVal → DVal
  | fin a => fin (-a)
  | inf s => inf (!s)
  | nan => nan

/-- IEEE subtraction `x - y = x + (-y)`. -/
def sub (x y : DVal) : DVal := add x (neg y)

/-- IEEE multiplication: `NaN` propagates, `0 × ∞ = NaN`. -/
def mul : DVal → DVal → DVal
  | nan, _ => nan
  | _, nan => nan
  | inf s, inf t => inf (s == t)
  | inf s, fin b => if b = 0 then nan else inf (s == decide (0 < b))
  | fin a, inf t => if a = 0 then nan else inf (t == decide (0 < a))
  | fin a, fin b => fin (a * b)

/-- IEEE division: `NaN` propagates, `∞/∞ = NaN`, `0/0 = NaN`,
`x/0 = ±∞` for finite `x ≠ 0`, `x/∞ = 0` for finite `x`
(signed zero not distinguished). -/
def div : DVal → DVal → DVal
  | nan, _ => nan
  | _, nan => nan
  | inf _, inf _ => nan
  | inf s, fin b => if b = 0 then inf s else inf (s == decide (0 < b))
  | fin _, inf _ => fin 0
  | fin a, fin b =>
      if b = 0 then (if a = 0 then nan else inf (decide (0 < a))) else fin (a / b)

instance : Add DVal := ⟨add⟩
instance : Neg DVal := ⟨neg⟩
instance : Sub DVal := ⟨sub⟩
instance : Mul DVal := ⟨mul⟩
instance : Div DVal := ⟨div⟩

/-- `true` exactly on finite values (`!isnan && !isinf`). -/
def isFinite : DVal → Bool
  | fin _ => true
  | _ => false

/-- The C comparison `x >= c` against a finite constant `c`:
`NaN >= c` is `false`. -/
def geQ : DVal → ℚ → Bool
  | fin q, c => decide (c ≤ q)
  | inf s, _ => s
  | nan, _ => false

/-- The C comparison `x < c` against a finite constant `c`:
`NaN < c` is `false`. -/
def ltQ : DVal → ℚ → Bool
  | fin q, c => decide (q < c)
  | inf s, _ => !s
  | nan, _ => false

theorem fin_add_fin (a b : ℚ) : fin a + fin b = fin (a + b) := rfl

theorem fin_mul_fin (a b : ℚ) : fin a * fin b = fin (a * b) := rfl

theorem fin_sub_fin (a b : ℚ) : fin a - fin b = fin (a - b) := by
  show sub _ _ = _
  simp [sub, add, neg, sub_eq_add_neg]

theorem fin_div_fin (a b : ℚ) (hb : b ≠ 0) : fin a / fin b = fin (a / b) := by
  show div _ _ = _
  simp [div, hb]

theorem add_nan (x : DVal) : x + nan = nan := by cases x <;> rfl

theorem nan_add (x : DVal) : nan + x = nan := by cases x <;> rfl

theorem nan_mul (x : DVal) : nan * x = nan := by cases x <;> rfl

theorem nan_sub (x : DVal) : nan - x = nan := by cases x <;> rfl

theorem fin_ne_nan (a : ℚ) : fin a ≠ nan := by simp

theorem neg_fin (a : ℚ) : -fin a = fin (-a) := rfl

theorem div_nan (x : DVal) : x / nan = nan := by cases x <;> rfl

theorem nan_div (x : DVal) : nan / x = nan := by cases x <;> rfl

theorem zero_div_zero : fin 0 / fin 0 = nan := by
  show div _ _ = _
  simp [div]

end DVal

/-! ## TSensor: MAX31855 reader (TSensor.cpp) -/

/-- Interpret the low 32 bits of `n` as a two's-complement `int32_t`. -/
def toInt32 (n : Nat) : ℤ :=
  if n % 4294967296 < 2147483648 then ((n % 4294967296 : Nat) : ℤ)
  else ((n % 4294967296 : Nat) : ℤ) - 4294967296

/-- `TSENSOR_RES_PROBE = 0.25` (exact in binary floating point). -/
def TSENSOR_RES_PROBE : ℚ := 1/4

/-- `TSENSOR_RES_AMBIENT = 0.0625` (exact in binary floating point). -/
def TSENSOR_RES_AMBIENT : ℚ := 1/16

/-- `TSENSOR_SENSITIVITY_MV = 0.041276` (mV/°C). -/
def TSENSOR_SENSITIVITY_MV : ℚ := 41276/1000000

/-- Result of `TSensor::readChip`: the fields of `TSensor` it updates. -/
structure TSensorReading where
  valRaw : Nat
  valProbe : DVal
  valAmbient : DVal
  error : Nat
deriving DecidableEq, Repr

/-- Embeds `TSensor::readChip` (TSensor.cpp lines 25–85) as a function of
the 32-bit word `raw` clocked in over SPI and the `_reversed` flag.
`dataBuffer` is an `int32_t` holding the word; `_error` is
`dataBuffer & B111`; if no fault bit is set, the ambient path computes
`(dataBuffer & 0xFFFF) >> 4`, conditionally ORs `0xFFFF000` when bit
`0x2000` of that shifted value is set, and scales by `0.0625`, and the
probe path arithmetically shifts the `int32_t` right by 18, conditionally
ORs `0xFFFE000` when bit `0x2000` is set, and scales by `0.25`; with
`_reversed` the probe value becomes `(valAmbient - valProbe) + valAmbient`. -/
def readChip (raw : Nat) (reversed : Bool) : TSensorReading :=
  let w := raw % 4294967296
  let err := w &&& 7
  if err ≠ 0 then
    { valRaw := w, valProbe := DVal.nan, valAmbient := DVal.nan, error := err }
  else
    -- ambient: (dataBuffer & 0xFFFF) >> 4, dead sign-extension check at 0x2000
    let amb0 := (w &&& 0xFFFF) >>> 4
    let amb1 := if amb0 &&& 0x2000 ≠ 0 then amb0 ||| 0xFFFF000 else amb0
    let valAmbient := DVal.fin ((toInt32 amb1 : ℚ) * TSENSOR_RES_AMBIENT)
    -- probe: arithmetic shift of the int32 by 18, then 0x2000 sign check
    let pr0 := Int.toNat ((Int.fdiv (toInt32 w) 262144) % 4294967296)
    let pr1 := if pr0 &&& 0x2000 ≠ 0 then pr0 ||| 0xFFFE000 else pr0
    let valProbe := DVal.fin ((toInt32 pr1 : ℚ) * TSENSOR_RES_PROBE)
    let valProbe := if reversed then (valAmbient - valProbe) + valAmbient else valProbe
    { valRaw := w, valProbe := valProbe, valAmbient := valAmbient, error := err }

/-- NIST type-K coefficients `c_positive` (TSensor.cpp lines 178–188),
as exact decimal rationals. -/
def c_positive : List ℚ :=
  [ -176004136860/10^13, 389212049750/10^13, 185587700320/10^16,
    -994575928740/10^19, 318409457190/10^21, -560728448890/10^24,
    560750590590/10^27, -320207200030/10^30, 971511471520/10^34,
    -121047212750/10^37, 0 ]

/-- `c_a0 = 0.118597600000E+00`. -/
def c_a0 : ℚ := 1185976/10^7

/-- `c_a1 = -0.118343200000E-03`. -/
def c_a1 : ℚ := -1183432/10^10

/-- `c_a2 = 0.126968600000E+03`. -/
def c_a2 : ℚ := 1269686/10^4

/-- NIST type-K coefficients `c_negative` (TSensor.cpp lines 196–206). -/
def c_negative : List ℚ :=
  [ 0, 394501280250/10^13, 236223735980/10^16, -328589067840/10^18,
    -499048287770/10^20, -675090591730/10^22, -574103274280/10^24,
    -310888728940/10^26, -104516093650/10^28, -198892668780/10^31,
    -163226974860/10^34 ]

/-- Inverse coefficients `d_200_0` for the −200…0 °C sub-range
(TSensor.cpp lines 209–218). -/
def d_200_0 : List ℚ :=
  [ 0, 25173462/10^6, -11662878/10^7, -10833638/10^7, -89773540/10^8,
    -37342377/10^8, -86632643/10^9, -10450598/10^9, -51920577/10^11, 0 ]

/-- Inverse coefficients `d_0_500` for the 0…500 °C sub-range
(TSensor.cpp lines 221–230). -/
def d_0_500 : List ℚ :=
  [ 0, 2508355/10^5, 7860106/10^8, -2503131/10^7, 8315270/10^8,
    -1228034/10^8, 9804036/10^10, -4413030/10^11, 1057734/10^12,
    -1052755/10^14 ]

/-- Inverse coefficients `d_500_1372` for the 500…1372 °C sub-range
(TSensor.cpp lines 233–242). -/
def d_500_1372 : List ℚ :=
  [ -1318058/10^4, 4830222/10^5, -1646031/10^6, 5464731/10^8,
    -9650715/10^10, 8802193/10^12, -3110810/10^14, 0, 0, 0 ]

/-- `TSENSOR_VOLTAGE_0 = 0.0` (mV). -/
def TSENSOR_VOLTAGE_0 : ℚ := 0

/-- `TSENSOR_VOLTAGE_500 = 20.644` (mV). -/
def TSENSOR_VOLTAGE_500 : ℚ := 20644/1000

/-- `TSENSOR_VOLTAGE_1372 = 54.886` (mV). -/
def TSENSOR_VOLTAGE_1372 : ℚ := 54886/1000

/-- The accumulation loop of `getProbeLinearized`
(`acc += coeff_array[i] * powT; powT *= x;` starting from
`acc = 0.0, powT = 1.0`), over `DVal` arithmetic. -/
def polyEvalD (coeffs : List ℚ) (x : DVal) : DVal :=
  (coeffs.foldl
    (fun (acc : DVal × DVal) c => (acc.1 + DVal.fin c * acc.2, acc.2 * x))
    (DVal.fin 0, DVal.fin 1)).1

/-- The C `exp` lifted to `DVal`: finite arguments go through the
uninterpreted `expf`, `exp(+∞) = +∞`, `exp(-∞) = 0`, `exp(NaN) = NaN`. -/
def applyExp (expf : ℚ → ℚ) : DVal → DVal
  | DVal.fin q => DVal.fin (expf q)
  | DVal.inf s => if s then DVal.inf true else DVal.fin 0
  | DVal.nan => DVal.nan

/-- Steps 1–4 of `TSensor::getProbeLinearized` (TSensor.cpp lines 107–136):
thermocouple voltage `(valProbe - valAmbient) * TSENSOR_SENSITIVITY_MV`
plus the cold-junction-equivalent voltage (polynomial in `valAmbient`
with the table chosen by the sign of `valAmbient`, the positive branch
adding `c_a0 * exp(c_a1 * (valAmbient - c_a2)^2)`). -/
def totalVoltage (expf : ℚ → ℚ) (valProbe valAmbient : DVal) : DVal :=
  let thermocoupleVoltage := (valProbe - valAmbient) * DVal.fin TSENSOR_SENSITIVITY_MV
  let coeffs := if valAmbient.geQ 0 then c_positive else c_negative
  let internalVoltage := polyEvalD coeffs valAmbient
  let internalVoltage :=
    if valAmbient.geQ 0 then
      internalVoltage +
        DVal.fin c_a0 *
          applyExp expf
            (DVal.fin c_a1 * ((valAmbient - DVal.fin c_a2) * (valAmbient - DVal.fin c_a2)))
    else internalVoltage
  thermocoupleVoltage + internalVoltage

/-- Embeds `TSensor::getProbeLinearized` (TSensor.cpp lines 93–168) as a
function of the stored `valProbe`/`valAmbient` and the `exp` model:
returns `NaN` if `valProbe` is `NaN`; returns `NaN` if the summed voltage
reaches `TSENSOR_VOLTAGE_1372`; otherwise evaluates the inverse
polynomial of the sub-range picked by the two remaining threshold tests
(all voltages below `TSENSOR_VOLTAGE_0` fall to the `d_200_0` table). -/
def getProbeLinearized (expf : ℚ → ℚ) (valProbe valAmbient : DVal) : DVal :=
  if valProbe = DVal.nan then DVal.nan
  else
    let tv := totalVoltage expf valProbe valAmbient
    if tv.geQ TSENSOR_VOLTAGE_1372 then DVal.nan
    else
      let dArr :=
        if tv.geQ TSENSOR_VOLTAGE_500 then d_500_1372
        else if tv.geQ TSENSOR_VOLTAGE_0 then d_0_500
        else d_200_0
      polyEvalD dArr tv

/-! ## TProgram: ramp-soak scheduler (TProgram.cpp / TProgram.h) -/

/-- `TPGM_NAME_LEN = 32`. -/
def TPGM_NAME_LEN : Nat := 32

/-- `TPGM_STEPS_MAX = 10`. -/
def TPGM_STEPS_MAX : Nat := 10

/-- One `TProgramStep` (TProgram.h lines 35–59): temperatures and the
precomputed slope are `double`s, `duration`/`dueTime` are `unsigned long`. -/
structure TProgramStep where
  T_start : DVal
  T_end : DVal
  slope : DVal
  duration : Nat
  dueTime : Nat
deriving DecidableEq, Repr

/-- The C++ default constructor: `T_start`, `T_end`, `slope` are `NAN`,
`duration` and `dueTime` are `0`. Array slots past `_nSteps` hold this. -/
instance : Inhabited TProgramStep :=
  ⟨{ T_start := DVal.nan, T_end := DVal.nan, slope := DVal.nan,
     duration := 0, dueTime := 0 }⟩

/-- `TProgramStep::Init` (TProgram.cpp lines 26–33):
`slope = (T_e - T_s)/d` with `d` converted to `double`. -/
def TProgramStep.Init (T_s T_e : DVal) (d dt : Nat) : TProgramStep :=
  { T_start := T_s, T_end := T_e, slope := (T_e - T_s) / DVal.fin (d : ℚ),
    duration := d, dueTime := dt }

/-- `TProgramStep::CalculateSetPoint` (TProgram.cpp lines 41–49):
`slope * t + T_start`. -/
def TProgramStep.CalcSP (st : TProgramStep) (t : Nat) : DVal :=
  st.slope * DVal.fin (t : ℚ) + st.T_start

/-- Reduction modulo 2^32: the value an `unsigned long` expression holds
on the 32-bit target. -/
def UL (n : Nat) : Nat := n % 4294967296

/-- The mutable state of a `TProgram` (TProgram.h lines 107–117).
`_steps` together with `_nSteps` is modelled as the list of the first
`_nSteps` array slots (`steps.length = _nSteps`; slots past `_nSteps`
hold default-constructed steps and are read through `List.getD`).
The `_name` buffer is modelled separately by `setNameWrites`, since
`SetName` is the only core routine that touches it. -/
structure TProgram where
  timeElapsed : Nat
  timeElapsedStep : Nat
  timeLast : Nat
  totalDuration : Nat
  idx : Nat
  steps : List TProgramStep
deriving DecidableEq, Repr

/-- The `TProgram` default constructor (TProgram.h lines 72–76): all
counters zero, no steps. -/
def emptyProgram : TProgram :=
  { timeElapsed := 0, timeElapsedStep := 0, timeLast := 0,
    totalDuration := 0, idx := 0, steps := [] }

/-- Embeds `TProgram::AddStep` (TProgram.cpp lines 62–72). Below capacity
it adds `d` to `_totalDuration`, initializes the next step with the new
total as its due-time, increments `_nSteps`, and then falls off the end
of the non-void function without executing a `return` — the returned
`bool` is undefined, modelled as `none`. At capacity it returns
`some false` and leaves the program unchanged. -/
def TProgram.AddStep (p : TProgram) (T_s T_e : DVal) (d : Nat) :
    Option Bool × TProgram :=
  if p.steps.length < TPGM_STEPS_MAX then
    let total := UL (p.totalDuration + d)
    (none,
      { p with totalDuration := total,
               steps := p.steps ++ [TProgramStep.Init T_s T_e d total] })
  else
    (some false, p)

/-- The elapsed-time accumulation at the head of
`TProgram::CalculateSetPoint` (TProgram.cpp line 120):
`_timeElapsed += (timeNow - _timeLast)` in wrapping 32-bit arithmetic. -/
def TProgram.newElapsed (p : TProgram) (timeNow : Nat) : Nat :=
  UL (p.timeElapsed + UL (timeNow + (4294967296 - UL p.timeLast)))

/-- The step-advancing loop of `TProgram::CalculateSetPoint`
(TProgram.cpp lines 125–130): while the elapsed time exceeds the current
step's due-time, increment `_idx`, returning `NAN` if `_idx` reaches
`_nSteps`. `Sum.inl j` is the bailout path (`_idx` left at `j`),
`Sum.inr j` is the found step index. -/
def advanceIdx (steps : List TProgramStep) (e : Nat) (idx : Nat) :
    Nat ⊕ Nat :=
  if e > (steps.getD idx default).dueTime then
    if idx + 1 ≥ steps.length then Sum.inl (idx + 1)
    else advanceIdx steps e (idx + 1)
  else Sum.inr idx
termination_by steps.length - idx
decreasing_by
  simp only [not_le] at *
  omega

/-- Embeds `TProgram::CalculateSetPoint` (TProgram.cpp lines 116–138) as
a function of the state and the current `millis()` value (a 32-bit
timestamp). Returns the setpoint (or `NAN`) together with the new state.
Note the order of operations: `_timeElapsed` is updated before the
completion check, `_timeLast` only after it. -/
def TProgram.CalculateSetPoint (p : TProgram) (timeNow : Nat) :
    DVal × TProgram :=
  let e := p.newElapsed timeNow
  if e > p.totalDuration then
    (DVal.nan, { p with timeElapsed := e })
  else
    match advanceIdx p.steps e p.idx with
    | Sum.inl j =>
        (DVal.nan,
          { p with timeElapsed := e, timeLast := UL timeNow, idx := j })
    | Sum.inr j =>
        let st := p.steps.getD j default
        let tes := UL (st.duration + (4294967296 - UL st.dueTime) + e)
        (st.CalcSP tes,
          { p with timeElapsed := e, timeLast := UL timeNow, idx := j,
                   timeElapsedStep := tes })

/-- A program that has been loaded consistently and begun: at least one
step, current index in range, the last step's due-time equal to the
precomputed total duration, and every step holding finite start
temperature and slope (as every program built by `AddStep` from steps
with positive duration and finite temperatures does). -/
def TProgram.WellFormed (p : TProgram) : Prop :=
  0 < p.steps.length ∧ p.idx < p.steps.length ∧
  (p.steps.getD (p.steps.length - 1) default).dueTime = p.totalDuration ∧
  p.steps.all (fun st => st.slope.isFinite && st.T_start.isFinite) = true

instance (p : TProgram) : Decidable p.WellFormed := by
  unfold TProgram.WellFormed; infer_instance

/-- Embeds `TProgram::SetName` (TProgram.h line 91):
`strncpy(_name, name, TPGM_NAME_LEN-1); _name[TPGM_NAME_LEN] = 0;`.
`strncpy` stores exactly its count bytes into `_name` (source characters
up to the terminator, then NUL padding); afterwards the code stores one
terminating NUL at index `TPGM_NAME_LEN`. The result is the list of
`(index, byte)` stores performed on the `char _name[TPGM_NAME_LEN]`
array. -/
def setNameWrites (name : List Char) : List (Nat × Char) :=
  (List.range (TPGM_NAME_LEN - 1)).map
    (fun i => (i, name.getD i (Char.ofNat 0)))
  ++ [(TPGM_NAME_LEN, Char.ofNat 0)]

/-! ## PIDControl: the PID law family (PIDControl.cpp / PIDControl.h) -/

/-- State of `PIDControlSimple` (PIDControl.h lines 80–97). -/
structure PIDControlSimple where
  poll : Nat
  A0 : DVal
  A1 : DVal
  A2 : DVal
  e0 : DVal
  e1 : DVal
  e2 : DVal
deriving DecidableEq, Repr

/-- `PIDControlSimple::Reset` (PIDControl.cpp lines 39–47): zeroes the
three error samples and precomputes
`_A0 = Kp + Ki*dt + Kd/dt`, `_A1 = -Kp - 2*Kd/dt`, `_A2 = Kd/dt`
(`dt` converted to `double`). -/
def PIDControlSimple.Reset (Kp Ki Kd : DVal) (dt : Nat) : PIDControlSimple :=
  { poll := dt,
    e0 := DVal.fin 0, e1 := DVal.fin 0, e2 := DVal.fin 0,
    A0 := Kp + Ki * DVal.fin (dt : ℚ) + Kd / DVal.fin (dt : ℚ),
    A1 := -Kp - DVal.fin 2 * Kd / DVal.fin (dt : ℚ),
    A2 := Kd / DVal.fin (dt : ℚ) }

/-- `PIDControlSimple::Evaluate` (PIDControl.cpp lines 49–55): shifts the
error history, stores `SP - PV` as the newest error, and returns
`U + _A0*_e0 + _A1*_e1 + _A2*_e2` over the shifted history. -/
def PIDControlSimple.Evaluate (s : PIDControlSimple) (SP PV U : DVal) :
    DVal × PIDControlSimple :=
  let e0 := SP - PV
  (U + s.A0 * e0 + s.A1 * s.e0 + s.A2 * s.e1,
   { s with e2 := s.e1, e1 := s.e0, e0 := e0 })

/-- State of `PIDControlIIR` (PIDControl.h lines 103–134). -/
structure PIDControlIIR where
  poll : Nat
  A0 : DVal
  A1 : DVal
  e2 : DVal
  e1 : DVal
  e0 : DVal
  A0d : DVal
  A1d : DVal
  A2d : DVal
  alpha1 : DVal
  alpha2 : DVal
  d0 : DVal
  d1 : DVal
  fd0 : DVal
  fd1 : DVal
deriving DecidableEq, Repr

/-- `PIDControlIIR::Reset` (PIDControl.cpp lines 57–80): zeroes filter
and error state and precomputes `_A0 = Kp + Ki / dt`, `_A1 = -Kp`,
`_A0d = Kd/dt`, `_A1d = -2.0*Kd/dt`, `_A2d = Kd/dt`,
`alpha = dt/(2*Kd/(Kp*5.0))`, `_alpha1 = alpha/(alpha+1)`,
`_alpha2 = (alpha-1)/(alpha+1)`. -/
def PIDControlIIR.Reset (Kp Ki Kd : DVal) (dt : Nat) : PIDControlIIR :=
  let alpha := DVal.fin (dt : ℚ) / (DVal.fin 2 * Kd / (Kp * DVal.fin 5))
  { poll := dt,
    d0 := DVal.fin 0, d1 := DVal.fin 0, fd0 := DVal.fin 0, fd1 := DVal.fin 0,
    e0 := DVal.fin 0, e1 := DVal.fin 0, e2 := DVal.fin 0,
    A0 := Kp + Ki / DVal.fin (dt : ℚ),
    A1 := -Kp,
    A0d := Kd / DVal.fin (dt : ℚ),
    A1d := -DVal.fin 2 * Kd / DVal.fin (dt : ℚ),
    A2d := Kd / DVal.fin (dt : ℚ),
    alpha1 := alpha / (alpha + DVal.fin 1),
    alpha2 := (alpha - DVal.fin 1) / (alpha + DVal.fin 1) }

/-- `PIDControlIIR::Evaluate` (PIDControl.cpp lines 82–96): shifts the
error history, computes the raw derivative tap
`_d0 = _A0d*_e0 + _A1d*_e1 + _A2d*_e2`, filters it through
`_fd0 = _alpha1*(_d0+_d1) - _alpha2*_fd1`, and returns
`U + _A0*_e0 + _A1*_e1 + _fd0`. -/
def PIDControlIIR.Evaluate (s : PIDControlIIR) (SP PV U : DVal) :
    DVal × PIDControlIIR :=
  let e0 := SP - PV
  let e1 := s.e0
  let e2 := s.e1
  let d1 := s.d0
  let d0 := s.A0d * e0 + s.A1d * e1 + s.A2d * e2
  let fd1 := s.fd0
  let fd0 := s.alpha1 * (d0 + d1) - s.alpha2 * fd1
  (U + s.A0 * e0 + s.A1 * e1 + fd0,
   { s with e2 := e2, e1 := e1, e0 := e0,
            d1 := d1, d0 := d0, fd1 := fd1, fd0 := fd0 })

/-! ## Claim theorems -/

/-- C1 (code evaluation at the failing input): for the raw word `0xFFF0`
— no fault bit set, ambient field `0xFFF`, i.e. the two's-complement
pattern of −1, which must decode to −0.0625 °C — `readChip` decodes the
ambient temperature as `4095 * 0.0625 = 255.9375 °C`: the sign-extension
test `dataBuffer & 0x2000` can never hold after `(dataBuffer & 0xFFFF) >> 4`,
so negative ambient patterns are read as large positive temperatures.
The probe field, by contrast, is decoded correctly: the all-ones probe
field of `0xFFFFC000` (two's-complement −1) gives −0.25 °C. -/
theorem readChip_ambient_sign_extension_dead :
    (readChip 0xFFF0 false).error = 0 ∧
    (readChip 0xFFF0 false).valAmbient = DVal.fin (4095 * TSENSOR_RES_AMBIENT) ∧
    (4095 * TSENSOR_RES_AMBIENT : ℚ) ≠ (-1) * TSENSOR_RES_AMBIENT ∧
    (readChip 0xFFFFC000 false).error = 0 ∧
    (readChip 0xFFFFC000 false).valProbe = DVal.fin ((-1) * TSENSOR_RES_PROBE) := by
  have ha : (readChip 0xFFF0 false).valAmbient
      = DVal.fin ((toInt32 4095 : ℚ) * TSENSOR_RES_AMBIENT) := rfl
  have hp : (readChip 0xFFFFC000 false).valProbe
      = DVal.fin ((toInt32 4294967295 : ℚ) * TSENSOR_RES_PROBE) := rfl
  refine ⟨by decide, ?_, by norm_num [TSENSOR_RES_AMBIENT], by decide, ?_⟩
  · rw [ha]
    norm_num [toInt32]
  · rw [hp]
    norm_num [toInt32]

/-- C2: for every raw word with a fault bit (bits 0–2) set, `readChip`
reports exactly that fault bitmask and leaves both temperatures at the
invalid sentinel `NaN`, regardless of all other bits and of the
`reversed` flag. -/
theorem readChip_fault_invalidates (raw : Nat) (reversed : Bool)
    (h : raw % 4294967296 &&& 7 ≠ 0) :
    (readChip raw reversed).error = raw % 4294967296 &&& 7 ∧
    (readChip raw reversed).valProbe = DVal.nan ∧
    (readChip raw reversed).valAmbient = DVal.nan := by
  unfold readChip
  rw [if_pos h]
  exact ⟨rfl, rfl, rfl⟩

/-- Witness for C2 at the concrete raw word `0xABCD1234 | 1`
(fault bit 0 set, arbitrary other bits). -/
theorem readChip_fault_invalidates_witness :
    (readChip 0xABCD1235 true).error = 0xABCD1235 % 4294967296 &&& 7 ∧
    (readChip 0xABCD1235 true).valProbe = DVal.nan ∧
    (readChip 0xABCD1235 true).valAmbient = DVal.nan :=
  readChip_fault_invalidates 0xABCD1235 true (by decide)

/-- C6 (code evaluation at the failing input): `AddStep` accepts a step
of zero duration. After adding a 1000 ms step and then a 0 ms step, the
second call is not rejected, the stored due-times are `[1000, 1000]`
(not strictly increasing), and the zero-duration step's precomputed
slope is `(100-100)/0 = NaN` (undefined). -/
theorem addStep_zero_duration_accepted :
    ((emptyProgram.AddStep (DVal.fin 0) (DVal.fin 100) 1000).2.AddStep
        (DVal.fin 100) (DVal.fin 100) 0).1 ≠ some false ∧
    ((emptyProgram.AddStep (DVal.fin 0) (DVal.fin 100) 1000).2.AddStep
        (DVal.fin 100) (DVal.fin 100) 0).2.steps.map TProgramStep.dueTime
      = [1000, 1000] ∧
    (((emptyProgram.AddStep (DVal.fin 0) (DVal.fin 100) 1000).2.AddStep
        (DVal.fin 100) (DVal.fin 100) 0).2.steps.getD 1 default).slope
      = DVal.nan := by
  have hs : (((emptyProgram.AddStep (DVal.fin 0) (DVal.fin 100) 1000).2.AddStep
      (DVal.fin 100) (DVal.fin 100) 0).2.steps.getD 1 default).slope
      = (DVal.fin 100 - DVal.fin 100) / DVal.fin ((0 : ℕ) : ℚ) := rfl
  refine ⟨by decide, by decide, ?_⟩
  rw [hs, DVal.fin_sub_fin]
  norm_num [DVal.zero_div_zero]

/-- C7: below capacity `AddStep` appends the step, with due-time equal
to the previous total duration plus the new duration and that same value
as the new total — but it returns **no** value: the success path of the
non-void function ends without a `return` statement (undefined return
value in C++, modelled `none`), contradicting its documented
`@return true on success`. At (or beyond) capacity it returns
`some false` and leaves the program completely unchanged; either way it
never throws (the embedding is a total function). -/
theorem addStep_spec (p : TProgram) (T_s T_e : DVal) (d : Nat) :
    (p.steps.length < TPGM_STEPS_MAX →
      p.AddStep T_s T_e d =
        (none,
          { p with totalDuration := UL (p.totalDuration + d),
                   steps := p.steps ++
                     [TProgramStep.Init T_s T_e d (UL (p.totalDuration + d))] })) ∧
    (¬ p.steps.length < TPGM_STEPS_MAX →
      p.AddStep T_s T_e d = (some false, p)) := by
  constructor
  · intro h
    unfold TProgram.AddStep
    rw [if_pos h]
  · intro h
    unfold TProgram.AddStep
    rw [if_neg h]

/-- A program whose step array is filled to `TPGM_STEPS_MAX`. -/
def capacityProgram : TProgram :=
  { timeElapsed := 0, timeElapsedStep := 0, timeLast := 0,
    totalDuration := 10, idx := 0,
    steps := List.replicate TPGM_STEPS_MAX
      { T_start := DVal.fin 0, T_end := DVal.fin 1, slope := DVal.fin 1,
        duration := 1, dueTime := 1 } }

/-- Witness for C7: on the empty program `AddStep(25, 200, 600000)`
returns no value (`none`) while appending the step; on a full program
`AddStep` returns `some false` and changes nothing. -/
theorem addStep_spec_witness :
    (emptyProgram.AddStep (DVal.fin 25) (DVal.fin 200) 600000).1 = none ∧
    capacityProgram.AddStep (DVal.fin 0) (DVal.fin 1) 1
      = (some false, capacityProgram) := by
  constructor
  · rw [(addStep_spec emptyProgram (DVal.fin 25) (DVal.fin 200) 600000).1
      (by decide)]
  · exact (addStep_spec capacityProgram (DVal.fin 0) (DVal.fin 1) 1).2
      (by decide)

/-- C9 (code evaluation at the failing input): with `Kp = 0, Ki = 1,
Kd = 0, dt = 2`, `PIDControlIIR::Reset` computes `_A0 = Kp + Ki/dt = 0.5`
while `PIDControlSimple::Reset` computes `_A0 = Kp + Ki*dt + Kd/dt = 2`:
the IIR variant divides the integral gain by the poll interval instead
of multiplying. Its `_A1 = -Kp` does agree with the Simple variant. -/
theorem iir_A0_differs_from_simple :
    (PIDControlIIR.Reset (DVal.fin 0) (DVal.fin 1) (DVal.fin 0) 2).A0
      = DVal.fin (1/2) ∧
    (PIDControlSimple.Reset (DVal.fin 0) (DVal.fin 1) (DVal.fin 0) 2).A0
      = DVal.fin 2 ∧
    (PIDControlIIR.Reset (DVal.fin 0) (DVal.fin 1) (DVal.fin 0) 2).A1
      = (PIDControlSimple.Reset (DVal.fin 0) (DVal.fin 1) (DVal.fin 0) 2).A1 ∧
    DVal.fin (1/2) ≠ DVal.fin (2 : ℚ) := by
  refine ⟨?_, ?_, ?_, by norm_num⟩ <;>
    norm_num [PIDControlIIR.Reset, PIDControlSimple.Reset, DVal.fin_add_fin,
      DVal.fin_mul_fin, DVal.fin_div_fin, DVal.fin_sub_fin, DVal.neg_fin]

/-- C10 (code evaluation at the failing input): calling `SetName("A")`
performs a store at index `TPGM_NAME_LEN = 32` — one past the end of the
32-byte `_name` array — so not every array access `SetName` performs is
in bounds (`_name[TPGM_NAME_LEN] = 0` should be
`_name[TPGM_NAME_LEN-1] = 0`). -/
theorem setName_null_write_out_of_bounds :
    (TPGM_NAME_LEN, Char.ofNat 0) ∈ setNameWrites [Char.ofNat 65] ∧
    ¬ (∀ w ∈ setNameWrites [Char.ofNat 65], w.1 < TPGM_NAME_LEN) := by
  decide

/-- C4: with `dt > 0`, `PIDControlSimple::Reset` precomputes exactly
`A0 = Kp + Ki*dt + Kd/dt`, `A1 = -Kp - 2*Kd/dt`, `A2 = Kd/dt` and zeroes
the three stored error samples; and every `Evaluate(SP, PV, U)` on a
finite-valued state shifts the error history by one sample, stores
`SP - PV` as the newest error, and returns
`U + A0*e0 + A1*e1 + A2*e2` with `e0` the newest and `e2` the oldest
stored error. -/
theorem simple_reset_evaluate_spec (Kp Ki Kd : ℚ) (dt : Nat) (h : 0 < dt) :
    ((PIDControlSimple.Reset (DVal.fin Kp) (DVal.fin Ki) (DVal.fin Kd) dt).A0
        = DVal.fin (Kp + Ki * (dt : ℚ) + Kd / (dt : ℚ)) ∧
     (PIDControlSimple.Reset (DVal.fin Kp) (DVal.fin Ki) (DVal.fin Kd) dt).A1
        = DVal.fin (-Kp - 2 * Kd / (dt : ℚ)) ∧
     (PIDControlSimple.Reset (DVal.fin Kp) (DVal.fin Ki) (DVal.fin Kd) dt).A2
        = DVal.fin (Kd / (dt : ℚ)) ∧
     (PIDControlSimple.Reset (DVal.fin Kp) (DVal.fin Ki) (DVal.fin Kd) dt).e0
        = DVal.fin 0 ∧
     (PIDControlSimple.Reset (DVal.fin Kp) (DVal.fin Ki) (DVal.fin Kd) dt).e1
        = DVal.fin 0 ∧
     (PIDControlSimple.Reset (DVal.fin Kp) (DVal.fin Ki) (DVal.fin Kd) dt).e2
        = DVal.fin 0) ∧
    (∀ (poll : Nat) (a0 a1 a2 e0 e1 e2 sp pv u : ℚ),
      PIDControlSimple.Evaluate
          { poll := poll, A0 := DVal.fin a0, A1 := DVal.fin a1,
            A2 := DVal.fin a2, e0 := DVal.fin e0, e1 := DVal.fin e1,
            e2 := DVal.fin e2 }
          (DVal.fin sp) (DVal.fin pv) (DVal.fin u)
        = (DVal.fin (u + a0 * (sp - pv) + a1 * e0 + a2 * e1),
           { poll := poll, A0 := DVal.fin a0, A1 := DVal.fin a1,
             A2 := DVal.fin a2, e0 := DVal.fin (sp - pv), e1 := DVal.fin e0,
             e2 := DVal.fin e1 })) := by
  have hdt : ((dt : ℚ)) ≠ 0 := by
    exact_mod_cast h.ne'
  constructor
  · refine ⟨?_, ?_, ?_, rfl, rfl, rfl⟩ <;>
      simp [PIDControlSimple.Reset, DVal.fin_add_fin, DVal.fin_mul_fin,
        DVal.fin_div_fin _ _ hdt, DVal.neg_fin, DVal.fin_sub_fin]
  · intro poll a0 a1 a2 e0 e1 e2 sp pv u
    simp [PIDControlSimple.Evaluate, DVal.fin_add_fin, DVal.fin_mul_fin,
      DVal.fin_sub_fin]

/-- Witness for C4 at `Kp = 1, Ki = 2, Kd = 3, dt = 4`. -/
theorem simple_reset_evaluate_spec_witness :
    0 < 4 ∧
    (PIDControlSimple.Reset (DVal.fin 1) (DVal.fin 2) (DVal.fin 3) 4).A0
      = DVal.fin (1 + 2 * ((4 : ℕ) : ℚ) + 3 / ((4 : ℕ) : ℚ)) :=
  ⟨by decide, (simple_reset_evaluate_spec 1 2 3 4 (by decide)).1.1⟩

/-- C8 counterexample: after `PIDControlIIR::Reset(0, 0, 0, 1)` (all
gains zero), `Evaluate(0, 0, 5)` does **not** return the last output 5 —
the filter constant `alpha = dt/(2*Kd/(Kp*5.0))` is `0/0 = NaN` when all
gains are zero, so the filtered derivative and hence the returned value
are `NaN`. -/
theorem iir_zero_gains_not_identity :
    (PIDControlIIR.Evaluate
        (PIDControlIIR.Reset (DVal.fin 0) (DVal.fin 0) (DVal.fin 0) 1)
        (DVal.fin 0) (DVal.fin 0) (DVal.fin 5)).1 ≠ DVal.fin 5 := by
  have h1 : (PIDControlIIR.Reset (DVal.fin 0) (DVal.fin 0) (DVal.fin 0) 1).alpha1
      = DVal.nan := by
    norm_num [PIDControlIIR.Reset, DVal.fin_mul_fin, DVal.fin_div_fin,
      DVal.zero_div_zero, DVal.div_nan, DVal.nan_div, DVal.nan_add,
      DVal.add_nan]
  have h2 : ∀ (s : PIDControlIIR), s.alpha1 = DVal.nan →
      ∀ SP PV U : DVal, (s.Evaluate SP PV U).1 = DVal.nan := by
    intro s hs SP PV U
    simp [PIDControlIIR.Evaluate, hs, DVal.nan_mul, DVal.nan_sub,
      DVal.add_nan]
  rw [h2 _ h1]
  simp

/-- C8 (amended): with `dt > 0` and all gains zero, the Simple variant
returns exactly `U` from every `Evaluate` on zeroed (indeed any finite)
error history; the IIR variant instead has `NaN` filter coefficients
after `Reset(0, 0, 0, dt)` (its `alpha` formula divides `0` by `0`), and
every subsequent `Evaluate` returns `NaN`, not `U`. -/
theorem zero_gains_simple_identity_iir_nan (dt : Nat) (h : 0 < dt) :
    ((PIDControlSimple.Reset (DVal.fin 0) (DVal.fin 0) (DVal.fin 0) dt).A0
        = DVal.fin 0 ∧
     (PIDControlSimple.Reset (DVal.fin 0) (DVal.fin 0) (DVal.fin 0) dt).A1
        = DVal.fin 0 ∧
     (PIDControlSimple.Reset (DVal.fin 0) (DVal.fin 0) (DVal.fin 0) dt).A2
        = DVal.fin 0 ∧
     (PIDControlSimple.Reset (DVal.fin 0) (DVal.fin 0) (DVal.fin 0) dt).e0
        = DVal.fin 0 ∧
     (PIDControlSimple.Reset (DVal.fin 0) (DVal.fin 0) (DVal.fin 0) dt).e1
        = DVal.fin 0 ∧
     (PIDControlSimple.Reset (DVal.fin 0) (DVal.fin 0) (DVal.fin 0) dt).e2
        = DVal.fin 0) ∧
    (∀ (poll : Nat) (e0 e1 e2 sp pv u : ℚ),
      (PIDControlSimple.Evaluate
          { poll := poll, A0 := DVal.fin 0, A1 := DVal.fin 0,
            A2 := DVal.fin 0, e0 := DVal.fin e0, e1 := DVal.fin e1,
            e2 := DVal.fin e2 }
          (DVal.fin sp) (DVal.fin pv) (DVal.fin u)).1 = DVal.fin u) ∧
    (PIDControlIIR.Reset (DVal.fin 0) (DVal.fin 0) (DVal.fin 0) dt).alpha1
      = DVal.nan ∧
    (∀ (s : PIDControlIIR), s.alpha1 = DVal.nan →
      ∀ SP PV U : DVal, (s.Evaluate SP PV U).1 = DVal.nan) := by
  have hdt : ((dt : ℚ)) ≠ 0 := by
    exact_mod_cast h.ne'
  refine ⟨⟨?_, ?_, ?_, rfl, rfl, rfl⟩, ?_, ?_, ?_⟩
  · norm_num [PIDControlSimple.Reset, DVal.fin_add_fin, DVal.fin_mul_fin,
      DVal.fin_div_fin _ _ hdt]
  · norm_num [PIDControlSimple.Reset, DVal.fin_add_fin, DVal.fin_mul_fin,
      DVal.fin_div_fin _ _ hdt, DVal.neg_fin, DVal.fin_sub_fin]
  · norm_num [PIDControlSimple.Reset, DVal.fin_div_fin _ _ hdt]
  · intro poll e0 e1 e2 sp pv u
    norm_num [PIDControlSimple.Evaluate, DVal.fin_add_fin, DVal.fin_mul_fin,
      DVal.fin_sub_fin]
  · norm_num [PIDControlIIR.Reset, DVal.fin_mul_fin, DVal.fin_div_fin,
      DVal.zero_div_zero, DVal.div_nan, DVal.nan_div, DVal.nan_add,
      DVal.add_nan]
  · intro s hs SP PV U
    simp [PIDControlIIR.Evaluate, hs, DVal.nan_mul, DVal.nan_sub,
      DVal.add_nan]

/-- Witness for C8 (amended) at `dt = 1` and a concrete Simple
evaluation. -/
theorem zero_gains_simple_identity_iir_nan_witness :
    0 < 1 ∧
    (PIDControlSimple.Evaluate
        { poll := 1, A0 := DVal.fin 0, A1 := DVal.fin 0, A2 := DVal.fin 0,
          e0 := DVal.fin 0, e1 := DVal.fin 0, e2 := DVal.fin 0 }
        (DVal.fin 100) (DVal.fin 20) (DVal.fin 7)).1 = DVal.fin 7 ∧
    (PIDControlIIR.Reset (DVal.fin 0) (DVal.fin 0) (DVal.fin 0) 1).alpha1
      = DVal.nan :=
  ⟨by decide,
   (zero_gains_simple_identity_iir_nan 1 (by decide)).2.1 1 0 0 0 100 20 7,
   (zero_gains_simple_identity_iir_nan 1 (by decide)).2.2.1⟩

/-- The accumulation loop stays finite on finite inputs: folding any
coefficient list from finite accumulator and power values yields finite
values. -/
theorem polyEvalD_foldl_fin (coeffs : List ℚ) (x : ℚ) :
    ∀ (a b : ℚ), ∃ q r : ℚ,
      coeffs.foldl
        (fun (acc : DVal × DVal) c => (acc.1 + DVal.fin c * acc.2, acc.2 * DVal.fin x))
        (DVal.fin a, DVal.fin b) = (DVal.fin q, DVal.fin r) := by
  induction coeffs with
  | nil =>
    intro a b
    exact ⟨a, b, rfl⟩
  | cons c cs ih =>
    intro a b
    simp only [List.foldl_cons, DVal.fin_mul_fin, DVal.fin_add_fin]
    exact ih (a + c * b) (b * x)

/-- `polyEvalD` of a finite value is finite. -/
theorem polyEvalD_fin (coeffs : List ℚ) (x : ℚ) :
    ∃ q : ℚ, polyEvalD coeffs (DVal.fin x) = DVal.fin q := by
  obtain ⟨q, r, h⟩ := polyEvalD_foldl_fin coeffs x 0 1
  exact ⟨q, by unfold polyEvalD; rw [h]⟩

/-- On finite probe/ambient values the summed voltage is finite. -/
theorem totalVoltage_fin (expf : ℚ → ℚ) (p a : ℚ) :
    ∃ q : ℚ, totalVoltage expf (DVal.fin p) (DVal.fin a) = DVal.fin q := by
  obtain ⟨qP, hP⟩ := polyEvalD_fin c_positive a
  obtain ⟨qN, hN⟩ := polyEvalD_fin c_negative a
  by_cases hga : (DVal.fin a).geQ 0 = true
  · refine ⟨(p - a) * TSENSOR_SENSITIVITY_MV
      + (qP + c_a0 * expf (c_a1 * ((a - c_a2) * (a - c_a2)))), ?_⟩
    simp [totalVoltage, hga, hP, applyExp, DVal.fin_sub_fin, DVal.fin_mul_fin,
      DVal.fin_add_fin]
  · refine ⟨(p - a) * TSENSOR_SENSITIVITY_MV + qN, ?_⟩
    simp [totalVoltage, hga, hN, DVal.fin_sub_fin, DVal.fin_mul_fin,
      DVal.fin_add_fin]

/-- C5 (amended): `getProbeLinearized` returns the invalid sentinel when
the stored probe temperature is `NaN`; on finite stored values it
returns the sentinel **iff** the summed voltage reaches or exceeds the
top of the highest sub-range (54.886 mV). There is no lower bound: any
voltage below the lowest sub-range still selects the `d_200_0` table and
returns its polynomial value. -/
theorem getProbeLinearized_nan_iff :
    (∀ (expf : ℚ → ℚ) (a : DVal),
      getProbeLinearized expf DVal.nan a = DVal.nan) ∧
    (∀ (expf : ℚ → ℚ) (p a : ℚ),
      (getProbeLinearized expf (DVal.fin p) (DVal.fin a) = DVal.nan ↔
        (totalVoltage expf (DVal.fin p) (DVal.fin a)).geQ
          TSENSOR_VOLTAGE_1372 = true)) := by
  constructor
  · intro expf a
    rfl
  · intro expf p a
    obtain ⟨qt, ht⟩ := totalVoltage_fin expf p a
    unfold getProbeLinearized
    rw [ht]
    simp only [if_neg (DVal.fin_ne_nan p)]
    by_cases hge : (DVal.fin qt).geQ TSENSOR_VOLTAGE_1372 = true
    · simp [hge]
    · by_cases h5 : (DVal.fin qt).geQ TSENSOR_VOLTAGE_500 = true
      · obtain ⟨qr, hr⟩ := polyEvalD_fin d_500_1372 qt
        simp [hge, h5, hr]
      · by_cases h0 : (DVal.fin qt).geQ TSENSOR_VOLTAGE_0 = true
        · obtain ⟨qr, hr⟩ := polyEvalD_fin d_0_500 qt
          simp [hge, h5, h0, hr]
        · obtain ⟨qr, hr⟩ := polyEvalD_fin d_200_0 qt
          simp [hge, h5, h0, hr]

/-- A concrete stand-in for `exp`; the counterexample below stays on the
negative-ambient branch, which never calls `exp`. -/
def expZero : ℚ → ℚ := fun _ => 0

/-- C5 counterexample: with stored probe −200 °C and ambient −1 °C the
summed voltage is below −5.891 mV, i.e. below the bottom of the lowest
(−200…0 °C) sub-range, yet `getProbeLinearized` does **not** return the
invalid sentinel — it applies the `d_200_0` polynomial, since the code
checks only the top boundary. -/
theorem getProbeLinearized_below_range_not_nan :
    (totalVoltage expZero (DVal.fin (-200)) (DVal.fin (-1))).ltQ
      (-5891/1000) = true ∧
    getProbeLinearized expZero (DVal.fin (-200)) (DVal.fin (-1))
      ≠ DVal.nan := by
  constructor
  · norm_num [totalVoltage, polyEvalD, expZero, c_negative, DVal.geQ,
      DVal.ltQ, DVal.fin_sub_fin, DVal.fin_mul_fin, DVal.fin_add_fin,
      TSENSOR_SENSITIVITY_MV, List.foldl]
  · norm_num [getProbeLinearized, totalVoltage, polyEvalD, expZero,
      c_negative, d_200_0, DVal.geQ, DVal.fin_sub_fin, DVal.fin_mul_fin,
      DVal.fin_add_fin, TSENSOR_SENSITIVITY_MV, TSENSOR_VOLTAGE_1372,
      TSENSOR_VOLTAGE_500, TSENSOR_VOLTAGE_0, List.foldl]
    exact ⟨DVal.fin_ne_nan _, DVal.fin_ne_nan _⟩

/-- A finiteness flag unpacks to an explicit finite value. -/
theorem DVal.isFinite_iff (x : DVal) :
    x.isFinite = true ↔ ∃ q, x = DVal.fin q := by
  cases x <;> simp [DVal.isFinite]

/-- An in-range `getD` read returns a list member. -/
theorem getD_mem_of_lt (l : List TProgramStep) (j : Nat) (h : j < l.length) :
    l.getD j default ∈ l := by
  rw [List.getD_eq_getElem l default h]
  exact List.getElem_mem h

/-- If the elapsed time does not exceed the last step's due-time and the
starting index is in range, the advancing loop of `CalculateSetPoint`
finds a step (never takes its defensive bail-out). -/
theorem advanceIdx_inr_of_le (steps : List TProgramStep) (e : Nat) :
    ∀ (fuel idx : Nat), steps.length - idx ≤ fuel → idx < steps.length →
      e ≤ (steps.getD (steps.length - 1) default).dueTime →
      ∃ j, advanceIdx steps e idx = Sum.inr j ∧ j < steps.length := by
  intro fuel
  induction fuel with
  | zero =>
    intro idx h1 h2 _
    omega
  | succ n ih =>
    intro idx h1 h2 h3
    unfold advanceIdx
    by_cases hc : e > (steps.getD idx default).dueTime
    · rw [if_pos hc]
      by_cases hb : idx + 1 ≥ steps.length
      · exfalso
        have hlast : idx = steps.length - 1 := by omega
        rw [hlast] at hc
        omega
      · rw [if_neg hb]
        exact ih (idx + 1) (by omega) (by omega) h3
    · rw [if_neg hc]
      exact ⟨idx, rfl, h2⟩

/-- C3: for every well-formed, begun program, `CalculateSetPoint`
returns the invalid sentinel iff the accumulated elapsed time (the
wraparound-safe sum the code itself computes) strictly exceeds the total
program duration — never before — and on that completion path the
current-step index, the within-step elapsed counter and the
last-evaluation timestamp are left unchanged. -/
theorem calculateSetPoint_complete_iff (p : TProgram) (timeNow : Nat)
    (h : p.WellFormed) :
    ((p.CalculateSetPoint timeNow).1 = DVal.nan ↔
        p.newElapsed timeNow > p.totalDuration) ∧
    (p.newElapsed timeNow > p.totalDuration →
      (p.CalculateSetPoint timeNow).2.idx = p.idx ∧
      (p.CalculateSetPoint timeNow).2.timeElapsedStep = p.timeElapsedStep ∧
      (p.CalculateSetPoint timeNow).2.timeLast = p.timeLast) := by
  obtain ⟨hlen, hidx, hlast, hfin⟩ := h
  by_cases hgt : p.newElapsed timeNow > p.totalDuration
  · have hcalc : p.CalculateSetPoint timeNow =
        (DVal.nan, { p with timeElapsed := p.newElapsed timeNow }) := by
      simp only [TProgram.CalculateSetPoint]
      rw [if_pos hgt]
    rw [hcalc]
    exact ⟨⟨fun _ => hgt, fun _ => rfl⟩, fun _ => ⟨rfl, rfl, rfl⟩⟩
  · obtain ⟨j, hj, hjlt⟩ :=
      advanceIdx_inr_of_le p.steps (p.newElapsed timeNow) p.steps.length
        p.idx (Nat.sub_le _ _) hidx (hlast ▸ Nat.le_of_not_lt hgt)
    have hmem := getD_mem_of_lt p.steps j hjlt
    have hfs := List.all_eq_true.mp hfin _ hmem
    rw [Bool.and_eq_true] at hfs
    obtain ⟨qs, hqs⟩ := (DVal.isFinite_iff _).mp hfs.1
    obtain ⟨qT, hqT⟩ := (DVal.isFinite_iff _).mp hfs.2
    have hsp : ∀ t : Nat, (p.steps.getD j default).CalcSP t
        = DVal.fin (qs * (t : ℚ) + qT) := by
      intro t
      unfold TProgramStep.CalcSP
      rw [hqs, hqT, DVal.fin_mul_fin, DVal.fin_add_fin]
    have hcalc : (p.CalculateSetPoint timeNow).1 =
        DVal.fin (qs * ((UL ((p.steps.getD j default).duration +
          (4294967296 - UL (p.steps.getD j default).dueTime) +
          p.newElapsed timeNow)) : ℚ) + qT) := by
      simp only [TProgram.CalculateSetPoint]
      rw [if_neg hgt, hj]
      simp only [hsp]
    refine ⟨?_, fun habs => absurd habs hgt⟩
    rw [hcalc]
    simp only [DVal.fin_ne_nan, false_iff]
    exact hgt

/-- A consistent two-step program (25→200 °C over 600 s, then 200 °C
held for 1800 s) with all but 1 ms of its total duration elapsed. -/
def witnessProgram : TProgram :=
  { timeElapsed := 2400000, timeElapsedStep := 0, timeLast := 0,
    totalDuration := 2400000, idx := 0,
    steps :=
      [ { T_start := DVal.fin 25, T_end := DVal.fin 200,
          slope := DVal.fin (7/24000), duration := 600000,
          dueTime := 600000 },
        { T_start := DVal.fin 200, T_end := DVal.fin 200,
          slope := DVal.fin 0, duration := 1800000,
          dueTime := 2400000 } ] }

/-- Witness for C3: on `witnessProgram` at `millis() = 1` the elapsed
time becomes 2400001 > 2400000 and the call reports completion. -/
theorem calculateSetPoint_complete_iff_witness :
    witnessProgram.WellFormed ∧
    ((witnessProgram.CalculateSetPoint 1).1 = DVal.nan ↔
      witnessProgram.newElapsed 1 > witnessProgram.totalDuration) :=
  ⟨by decide, (calculateSetPoint_complete_iff witnessProgram 1 (by decide)).1⟩
